import Mathlib

/-!
Verification of the SNOMED CT transformation pipeline.

This file gives a shallow embedding of the core of the repository
(`src/snomedct/snomedct_datamodel.py` and `src/snomedct/snomedct.py`):
the raw-table data model, the reconciliation cascade performed in
`SnomedDataRaw.__attrs_post_init__`, the per-row validation of
`validate_table`, and the denormalization joins of
`denormalize_term_tables` / `denormalize_definition_tables`.

Polars DataFrames and Series are modelled as Lean lists of structure
values / lists of strings.  Python truthiness of the optional narrowing
configuration (`config.limit`, `config.extras.id_filter`) is modelled
explicitly: `None`, `0` and the empty tuple are all falsy.
-/

/-- Row of a description table (`SnomedTableDescription` in
`snomedct_datamodel.py`): id, active flag, conceptId, languageCode,
typeId and term. -/
structure SnomedTableDescription where
  id : String
  active : Int
  conceptId : String
  languageCode : String
  typeId : String
  term : String
deriving DecidableEq, Repr

/-- Definition rows share the description shape
(`SnomedTableDefinition = SnomedTableDescription` in the source). -/
abbrev SnomedTableDefinition := SnomedTableDescription

/-- Row of a relationship table (`SnomedTableRelationship`). -/
structure SnomedTableRelationship where
  id : String
  active : Int
  sourceId : String
  destinationId : String
  relationshipGroup : String
  typeId : String
  characteristicTypeId : String
deriving DecidableEq, Repr

/-- Row of a language refset table (`SnomedTableLanguage`). -/
structure SnomedTableLanguage where
  id : String
  active : Int
  refsetId : String
  referencedComponentId : String
  acceptabilityId : String
deriving DecidableEq, Repr

/-- Row of a concept table (`SnomedTableConcept`). -/
structure SnomedTableConcept where
  id : String
  active : Int
deriving DecidableEq, Repr

/-- Processing configuration (`Config` in `datamodel.py` together with the
`id_filter` entry of `SnomedExtras`).  `limit` models the optional
non-negative integer `config.limit`, `id_filter` the optional tuple
`config.extras.id_filter`. -/
structure Config where
  limit : Option Nat
  validate : Bool
  safe_validation : Bool
  id_filter : Option (List String)
deriving DecidableEq, Repr

/-- Python truthiness of `config.extras.id_filter`: `None` and the empty
tuple are falsy. -/
def truthy_id_filter : Option (List String) → Bool
  | none => false
  | some f => !f.isEmpty

/-- Python truthiness of `config.limit`: `None` and `0` are falsy. -/
def truthy_limit : Option Nat → Bool
  | none => false
  | some n => n != 0

/-- The sixteen raw tables plus configuration and the derived identifier
series (`SnomedDataRaw`).  The `ids` field is `init=False` in the source:
it is overwritten by the post-init pipeline. -/
structure SnomedDataRaw where
  config : Config
  ids : List String
  concept_no : List SnomedTableConcept
  concept_int : List SnomedTableConcept
  description_no_no : List SnomedTableDescription
  description_en_no : List SnomedTableDescription
  description_en_int : List SnomedTableDescription
  definition_no_no : List SnomedTableDefinition
  definition_en_no : List SnomedTableDefinition
  definition_en_int : List SnomedTableDefinition
  language_nb_no : List SnomedTableLanguage
  language_nb_gp_no : List SnomedTableLanguage
  language_nn_no : List SnomedTableLanguage
  language_nn_gp_no : List SnomedTableLanguage
  language_en_no : List SnomedTableLanguage
  language_en_int : List SnomedTableLanguage
  relationship_no : List SnomedTableRelationship
  relationship_int : List SnomedTableRelationship
deriving DecidableEq, Repr

/-- The inner helper `filter_table` of `__attrs_post_init__`: keep the rows
whose key column value is in `is_in` (or, with `exclude`, the rows whose
key value is not in `is_in`).  The polars column is modelled by a key
function. -/
def filter_table (table : List α) (key : α → String) (is_in : List String)
    (exclude : Bool) : List α :=
  if exclude then table.filter (fun r => !(is_in.contains (key r)))
  else table.filter (fun r => is_in.contains (key r))

/-- Series.unique with `maintain_order=False`: the result order is not
significant, only which values occur.  Modelled as a keep-last dedup. -/
def unique_vals : List String → List String
  | [] => []
  | a :: rest =>
    if (unique_vals rest).contains a then unique_vals rest
    else a :: unique_vals rest

/-- Lexicographic comparison of character lists, the order in which
Series.sort sorts a string column ascending. -/
def chars_le : List Char → List Char → Bool
  | [], _ => true
  | _ :: _, [] => false
  | a :: as, b :: bs => if a < b then true else if a = b then chars_le as bs else false

/-- Lexicographic string comparison (ascending sort order). -/
def str_le (a b : String) : Bool :=
  chars_le a.data b.data

/-- Insert one identifier into an ascending-sorted list of identifiers. -/
def insert_sorted (a : String) : List String → List String
  | [] => [a]
  | b :: bs => if str_le a b then a :: b :: bs else b :: insert_sorted a bs

/-- Series.sort: sort identifiers ascending (lexicographic on strings). -/
def sort_ids (l : List String) : List String :=
  l.foldr insert_sorted []

/-- Step 1 of `__attrs_post_init__` (cross-source dedup): remove from each
INT table every row whose `id` also appears in the corresponding NO
table.  The NO tables are untouched. -/
def stage_dedup (d : SnomedDataRaw) : SnomedDataRaw :=
  { d with
    concept_int :=
      filter_table d.concept_int (fun r => r.id) (d.concept_no.map (fun r => r.id)) true
    description_en_int :=
      filter_table d.description_en_int (fun r => r.id)
        (d.description_en_no.map (fun r => r.id)) true
    definition_en_int :=
      filter_table d.definition_en_int (fun r => r.id)
        (d.definition_en_no.map (fun r => r.id)) true
    language_en_int :=
      filter_table d.language_en_int (fun r => r.id)
        (d.language_en_no.map (fun r => r.id)) true
    relationship_int :=
      filter_table d.relationship_int (fun r => r.id)
        (d.relationship_no.map (fun r => r.id)) true }

/-- Filter a table to its rows with `active == 1`. -/
def active_only (table : List α) (active : α → Int) : List α :=
  table.filter (fun r => active r == 1)

/-- Step 2 of `__attrs_post_init__` (active filter): every field except
`config` and `ids` is filtered to rows with `active == 1`. -/
def stage_active (d : SnomedDataRaw) : SnomedDataRaw :=
  { d with
    concept_no := active_only d.concept_no (fun r => r.active)
    concept_int := active_only d.concept_int (fun r => r.active)
    description_no_no := active_only d.description_no_no (fun r => r.active)
    description_en_no := active_only d.description_en_no (fun r => r.active)
    description_en_int := active_only d.description_en_int (fun r => r.active)
    definition_no_no := active_only d.definition_no_no (fun r => r.active)
    definition_en_no := active_only d.definition_en_no (fun r => r.active)
    definition_en_int := active_only d.definition_en_int (fun r => r.active)
    language_nb_no := active_only d.language_nb_no (fun r => r.active)
    language_nb_gp_no := active_only d.language_nb_gp_no (fun r => r.active)
    language_nn_no := active_only d.language_nn_no (fun r => r.active)
    language_nn_gp_no := active_only d.language_nn_gp_no (fun r => r.active)
    language_en_no := active_only d.language_en_no (fun r => r.active)
    language_en_int := active_only d.language_en_int (fun r => r.active)
    relationship_no := active_only d.relationship_no (fun r => r.active)
    relationship_int := active_only d.relationship_int (fun r => r.active) }

/-- Step 3 (concept universe): union of the identifiers of the post-filter
INT and NO concept tables, deduplicated. -/
def concepts_active (d : SnomedDataRaw) : List String :=
  unique_vals (d.concept_int.map (fun r => r.id) ++ d.concept_no.map (fun r => r.id))

/-- Step 4 (baseline identifier sequence): conceptIds of the active
national descriptions, restricted to the concept universe, sorted
ascending.  The extra `active == 1` filter reproduces line 162 of the
source (a no-op after step 2, kept for fidelity). -/
def concept_ids_baseline (d : SnomedDataRaw) : List String :=
  let concepts_with_no_description :=
    unique_vals
      (((d.description_no_no.filter (fun r => r.active == 1)).map (fun r => r.conceptId)))
  sort_ids (concepts_with_no_description.filter (fun i => (concepts_active d).contains i))

/-- Step 5 (scope narrowing, lines 170-180): if `id_filter` is truthy,
restrict the baseline to its members; independently and subsequently, if
`limit` is truthy, truncate to the first `limit` elements. -/
def narrow_ids (concept_ids : List String) (id_filter : Option (List String))
    (limit : Option Nat) : List String :=
  let ids :=
    match id_filter with
    | some f => if f.isEmpty then concept_ids else concept_ids.filter (fun i => f.contains i)
    | none => concept_ids
  match limit with
  | some n => if n = 0 then ids else ids.take n
  | none => ids

/-- Steps 6-8 of `__attrs_post_init__`: cascade the final `ids` through the
conceptId-bearing tables (the national description table only when limit
or id_filter is truthy), then the language tables by
`referencedComponentId`, then the relationship tables by the
source-or-destination test. -/
def stage_cascade (d : SnomedDataRaw) : SnomedDataRaw :=
  let description_no_no :=
    if truthy_limit d.config.limit || truthy_id_filter d.config.id_filter then
      filter_table d.description_no_no (fun r => r.conceptId) d.ids false
    else d.description_no_no
  let description_en_no := filter_table d.description_en_no (fun r => r.conceptId) d.ids false
  let description_en_int := filter_table d.description_en_int (fun r => r.conceptId) d.ids false
  let definition_no_no := filter_table d.definition_no_no (fun r => r.conceptId) d.ids false
  let definition_en_no := filter_table d.definition_en_no (fun r => r.conceptId) d.ids false
  let definition_en_int := filter_table d.definition_en_int (fun r => r.conceptId) d.ids false
  let no_no_component_ids :=
    description_no_no.map (fun r => r.id) ++ definition_no_no.map (fun r => r.id)
  let language_nb_no :=
    filter_table d.language_nb_no (fun r => r.referencedComponentId) no_no_component_ids false
  let language_nb_gp_no :=
    filter_table d.language_nb_gp_no (fun r => r.referencedComponentId) no_no_component_ids false
  let language_nn_no :=
    filter_table d.language_nn_no (fun r => r.referencedComponentId) no_no_component_ids false
  let language_nn_gp_no :=
    filter_table d.language_nn_gp_no (fun r => r.referencedComponentId) no_no_component_ids false
  let en_no_component_ids :=
    description_en_no.map (fun r => r.id) ++ definition_en_no.map (fun r => r.id)
  let language_en_no :=
    filter_table d.language_en_no (fun r => r.referencedComponentId) en_no_component_ids false
  let en_int_component_ids :=
    description_en_int.map (fun r => r.id) ++ definition_en_int.map (fun r => r.id)
  let language_en_int :=
    filter_table d.language_en_int (fun r => r.referencedComponentId) en_int_component_ids false
  let relationship_no :=
    d.relationship_no.filter
      (fun r => d.ids.contains r.sourceId || d.ids.contains r.destinationId)
  let relationship_int :=
    d.relationship_int.filter
      (fun r => d.ids.contains r.sourceId || d.ids.contains r.destinationId)
  { d with
    description_no_no := description_no_no
    description_en_no := description_en_no
    description_en_int := description_en_int
    definition_no_no := definition_no_no
    definition_en_no := definition_en_no
    definition_en_int := definition_en_int
    language_nb_no := language_nb_no
    language_nb_gp_no := language_nb_gp_no
    language_nn_no := language_nn_no
    language_nn_gp_no := language_nn_gp_no
    language_en_no := language_en_no
    language_en_int := language_en_int
    relationship_no := relationship_no
    relationship_int := relationship_int }

/-- The whole of `SnomedDataRaw.__attrs_post_init__`: dedup, active filter,
derivation and narrowing of `ids`, then the identifier cascade. -/
def post_init (d : SnomedDataRaw) : SnomedDataRaw :=
  let d1 := stage_active (stage_dedup d)
  let d2 :=
    { d1 with
      ids := narrow_ids (concept_ids_baseline d1) d1.config.id_filter d1.config.limit }
  stage_cascade d2

/-! ### Row validation (`validate_table` in `snomedct.py`)

The attrs constructors raise when a field validator rejects a value;
success binds the row to nothing observable.  Each table family's
validators are embedded as boolean validity predicates, and
`validate_table` walks the rows, collecting the warned-about rows and
returning `none` for the fatal escalation raised when
`config.safe_validation` is false. -/

/-- Validators of `SnomedTableDescription`: `active ∈ {1, 0}`,
`languageCode ∈ {no, en}`, `typeId ∈ {synonym, fsn, definition}`. -/
def description_valid (r : SnomedTableDescription) : Bool :=
  (r.active == 1 || r.active == 0) && ["no", "en"].contains r.languageCode &&
    ["synonym", "fsn", "definition"].contains r.typeId

/-- Validators of `SnomedTableLanguage`: `active ∈ {1, 0}` and
`acceptabilityId` one of the two semantic labels. -/
def language_valid (r : SnomedTableLanguage) : Bool :=
  (r.active == 1 || r.active == 0) && ["tilrådd", "akseptabel"].contains r.acceptabilityId

/-- Validators of `SnomedTableConcept`: `active ∈ {1, 0}`. -/
def concept_valid (r : SnomedTableConcept) : Bool :=
  r.active == 1 || r.active == 0

/-- `SnomedTableRelationship` declares no field validators. -/
def relationship_valid (_ : SnomedTableRelationship) : Bool :=
  true

/-- The loop of `validate_table`: each failing row is logged as a warning;
if `safe_validation` is false the first failure escalates to a raised
`ValueError` (`none`); otherwise the walk completes and returns the
warned-about rows in order (`some`).  The table is never modified. -/
def validate_table (safe_validation : Bool) (valid : α → Bool) :
    List α → Option (List α)
  | [] => some []
  | r :: rs =>
    if valid r then validate_table safe_validation valid rs
    else if safe_validation then
      (validate_table safe_validation valid rs).map (fun ws => r :: ws)
    else none

/-- The validation tail of `generate_dataset_field` (lines 86-90): when
`config.validate` is set, run `validate_table`, and — unless it raised —
return the table value unchanged. -/
def validate_and_return (do_validate : Bool) (safe_validation : Bool)
    (valid : α → Bool) (table : List α) : Option (List α) :=
  if do_validate then
    match validate_table safe_validation valid table with
    | none => none
    | some _ => some table
  else some table

/-! ### Denormalization (`denormalize_term_tables`,
`denormalize_definition_tables` in `snomedct.py`)

Polars joins are modelled row-wise.  A left join keeps every left row and
attaches each matching right row (or `none` when unmatched); a right join
keeps every right row and attaches each matching left row (or `none`).
A polars `filter` drops rows whose predicate evaluates to null: on the
nullable columns produced by an outer join, `is_in` / `==` of a null
value is null, so unmatched rows are dropped by such filters. -/

/-- Polars left join on string keys: one output row per match pair, plus
an unmatched left row with a null right side. -/
def join_left (left : List α) (right : List β) (lkey : α → String)
    (rkey : β → String) : List (α × Option β) :=
  left.flatMap (fun l =>
    let ms := right.filter (fun r => rkey r == lkey l)
    if ms.isEmpty then [(l, none)] else ms.map (fun r => (l, some r)))

/-- Polars right join on string keys: one output row per match pair, plus
an unmatched right row with a null left side. -/
def join_right (left : List α) (right : List β) (lkey : α → String)
    (rkey : β → String) : List (Option α × β) :=
  right.flatMap (fun r =>
    let ms := left.filter (fun l => lkey l == rkey r)
    if ms.isEmpty then [(none, r)] else ms.map (fun l => (some l, r)))

/-- `pl.col(c).is_in(vals)` on a nullable column, as used in a filter:
null input yields null, which the filter drops (modelled as `false`). -/
def type_is_in (vals : List String) : Option String → Bool
  | some s => vals.contains s
  | none => false

/-- `pl.col(c) == v` on a nullable column, as used in a filter: null input
yields null, which the filter drops (modelled as `false`). -/
def type_eq (v : String) : Option String → Bool
  | some s => s == v
  | none => false

/-- A national language-refset row after the left join with its GP-register
counterpart: `active_right` dropped, `acceptabilityId_right` renamed to
`acceptabilityId_gp`, literal locale column `lc` added (the unselected
`id_right` / `refsetId_right` carry-alongs are omitted). -/
structure NoLangRow where
  id : String
  active : Int
  refsetId : String
  referencedComponentId : String
  acceptabilityId : String
  acceptabilityId_gp : Option String
  lc : String
deriving DecidableEq, Repr

/-- One locale's half of the national language table: left-join the main
refset with the GP refset on `referencedComponentId` and tag with the
locale literal. -/
def gp_annotated (lang : List SnomedTableLanguage) (gp : List SnomedTableLanguage)
    (lc : String) : List NoLangRow :=
  (join_left lang gp (fun r => r.referencedComponentId)
      (fun r => r.referencedComponentId)).map
    (fun p =>
      { id := p.1.id
        active := p.1.active
        refsetId := p.1.refsetId
        referencedComponentId := p.1.referencedComponentId
        acceptabilityId := p.1.acceptabilityId
        acceptabilityId_gp := p.2.map (fun r => r.acceptabilityId)
        lc := lc })

/-- `joined_no_language`: concatenation of the bokmål and nynorsk halves. -/
def joined_no_language (d : SnomedDataRaw) : List NoLangRow :=
  gp_annotated d.language_nb_no d.language_nb_gp_no "nb" ++
    gp_annotated d.language_nn_no d.language_nn_gp_no "nn"

/-- A row of the denormalized terms output; the description-side columns
are nullable because they come through a right join. -/
structure TermRow where
  conceptId : Option String
  termId : String
  term : Option String
  lc : String
  typeId : Option String
  acceptabilityId : String
  acceptabilityId_gp : Option String
deriving DecidableEq, Repr

/-- The joined (pre-filter) national terms table: the combined national
language table right-joined onto the national description table on
`id = referencedComponentId`. -/
def terms_no_joined (d : SnomedDataRaw) :
    List (Option SnomedTableDescription × NoLangRow) :=
  join_right d.description_no_no (joined_no_language d) (fun r => r.id)
    (fun r => r.referencedComponentId)

/-- `terms_no`: right join, filter to `typeId ∈ {fsn, synonym}` (dropping
null `typeId` of unmatched rows), rename `referencedComponentId` to
`termId` and project the seven output columns. -/
def terms_no (d : SnomedDataRaw) : List TermRow :=
  ((terms_no_joined d).filter
      (fun p => type_is_in ["fsn", "synonym"] (p.1.map (fun r => r.typeId)))).map
    (fun p =>
      { conceptId := p.1.map (fun r => r.conceptId)
        termId := p.2.referencedComponentId
        term := p.1.map (fun r => r.term)
        lc := p.2.lc
        typeId := p.1.map (fun r => r.typeId)
        acceptabilityId := p.2.acceptabilityId
        acceptabilityId_gp := p.2.acceptabilityId_gp })

/-- `terms_en`: stack the two English description sources and the two
English language tables, right-join, filter to `typeId ∈ {fsn, synonym}`,
use `refsetId` as the locale column, null GP acceptability. -/
def terms_en (d : SnomedDataRaw) : List TermRow :=
  let joined_en_descriptions := d.description_en_no ++ d.description_en_int
  let joined_en_language := d.language_en_no ++ d.language_en_int
  ((join_right joined_en_descriptions joined_en_language (fun r => r.id)
        (fun r => r.referencedComponentId)).filter
      (fun p => type_is_in ["fsn", "synonym"] (p.1.map (fun r => r.typeId)))).map
    (fun p =>
      { conceptId := p.1.map (fun r => r.conceptId)
        termId := p.2.referencedComponentId
        term := p.1.map (fun r => r.term)
        lc := p.2.refsetId
        typeId := p.1.map (fun r => r.typeId)
        acceptabilityId := p.2.acceptabilityId
        acceptabilityId_gp := none })

/-- `denormalize_term_tables`: national branch rows followed by English
branch rows. -/
def denormalize_term_tables (d : SnomedDataRaw) : List TermRow :=
  terms_no d ++ terms_en d

/-- A row of the denormalized definitions output. -/
structure DefinitionRow where
  conceptId : Option String
  definitionId : String
  term : Option String
  lc : String
deriving DecidableEq, Repr

/-- The four national language refsets, each tagged with its locale
literal, stacked (the definitions branch does not join GP registers). -/
def joined_no_language_defs (d : SnomedDataRaw) : List (SnomedTableLanguage × String) :=
  d.language_nb_no.map (fun r => (r, "nb")) ++
    d.language_nb_gp_no.map (fun r => (r, "nb")) ++
    d.language_nn_no.map (fun r => (r, "nn")) ++
    d.language_nn_gp_no.map (fun r => (r, "nn"))

/-- `definitions_no`: right-join the national definitions onto the stacked
national language table, filter to `typeId == definition` (dropping null
`typeId`), project (conceptId, definitionId, term, lc). -/
def definitions_no (d : SnomedDataRaw) : List DefinitionRow :=
  ((join_right d.definition_no_no (joined_no_language_defs d) (fun r => r.id)
        (fun p => p.1.referencedComponentId)).filter
      (fun p => type_eq "definition" (p.1.map (fun r => r.typeId)))).map
    (fun p =>
      { conceptId := p.1.map (fun r => r.conceptId)
        definitionId := p.2.1.referencedComponentId
        term := p.1.map (fun r => r.term)
        lc := p.2.2 })

/-- `definitions_en`: stack the two English definition sources and the two
English language tables, right-join, filter to `typeId == definition`,
locale from `refsetId`. -/
def definitions_en (d : SnomedDataRaw) : List DefinitionRow :=
  let joined_en_definitions := d.definition_en_no ++ d.definition_en_int
  let joined_en_language := d.language_en_no ++ d.language_en_int
  ((join_right joined_en_definitions joined_en_language (fun r => r.id)
        (fun r => r.referencedComponentId)).filter
      (fun p => type_eq "definition" (p.1.map (fun r => r.typeId)))).map
    (fun p =>
      { conceptId := p.1.map (fun r => r.conceptId)
        definitionId := p.2.referencedComponentId
        term := p.1.map (fun r => r.term)
        lc := p.2.refsetId })

/-- `denormalize_definition_tables`: national branch followed by English
branch. -/
def denormalize_definition_tables (d : SnomedDataRaw) : List DefinitionRow :=
  definitions_no d ++ definitions_en d

/-! ### Helper lemmas about the pipeline building blocks -/

theorem mem_filter_table_incl {t : List α} {k : α → String} {vals : List String} {r : α} :
    r ∈ filter_table t k vals false ↔ r ∈ t ∧ k r ∈ vals := by
  simp [filter_table]

theorem mem_filter_table_excl {t : List α} {k : α → String} {vals : List String} {r : α} :
    r ∈ filter_table t k vals true ↔ r ∈ t ∧ k r ∉ vals := by
  simp [filter_table]

theorem filter_table_subset {t : List α} {k : α → String} {vals : List String} {b : Bool}
    {r : α} (h : r ∈ filter_table t k vals b) : r ∈ t := by
  cases b
  · exact (mem_filter_table_incl.mp h).1
  · exact (mem_filter_table_excl.mp h).1

theorem mem_active_only {t : List α} {act : α → Int} {r : α} :
    r ∈ active_only t act ↔ r ∈ t ∧ act r = 1 := by
  simp [active_only]

theorem mem_unique_vals {l : List String} {a : String} :
    a ∈ unique_vals l ↔ a ∈ l := by
  induction l with
  | nil => simp [unique_vals]
  | cons b rest ih =>
    rw [unique_vals]
    split
    · rename_i hb
      have hmem : b ∈ unique_vals rest := List.elem_iff.mp hb
      rw [ih, List.mem_cons]
      constructor
      · exact fun h => Or.inr h
      · rintro (rfl | h)
        · exact ih.mp hmem
        · exact h
    · rw [List.mem_cons, List.mem_cons, ih]

theorem mem_insert_sorted {l : List String} {a b : String} :
    a ∈ insert_sorted b l ↔ a = b ∨ a ∈ l := by
  induction l with
  | nil => simp [insert_sorted]
  | cons c cs ih =>
    rw [insert_sorted]
    split
    · simp
    · rw [List.mem_cons, List.mem_cons, ih]
      tauto

theorem mem_sort_ids {l : List String} {a : String} :
    a ∈ sort_ids l ↔ a ∈ l := by
  induction l with
  | nil => simp [sort_ids]
  | cons b bs ih =>
    show a ∈ insert_sorted b (sort_ids bs) ↔ a ∈ b :: bs
    rw [mem_insert_sorted, ih, List.mem_cons]

theorem narrow_ids_subset {b : List String} {f : Option (List String)} {l : Option Nat}
    {x : String} (h : x ∈ narrow_ids b f l) : x ∈ b := by
  unfold narrow_ids at h
  rcases l with _ | n <;> rcases f with _ | fl <;> simp only at h
  · exact h
  · split at h
    · exact h
    · exact (List.mem_filter.mp h).1
  · split at h
    · exact h
    · exact List.mem_of_mem_take h
  · split at h
    · split at h
      · exact h
      · exact (List.mem_filter.mp h).1
    · split at h
      · exact List.mem_of_mem_take h
      · exact (List.mem_filter.mp (List.mem_of_mem_take h)).1

theorem mem_concepts_active {d : SnomedDataRaw} {x : String} :
    x ∈ concepts_active d ↔
      (∃ r ∈ d.concept_int, r.id = x) ∨ ∃ r ∈ d.concept_no, r.id = x := by
  simp only [concepts_active, mem_unique_vals, List.mem_append, List.mem_map]

theorem mem_concept_ids_baseline {d : SnomedDataRaw} {x : String} :
    x ∈ concept_ids_baseline d ↔
      (∃ r ∈ d.description_no_no, r.conceptId = x ∧ r.active = 1) ∧
        x ∈ concepts_active d := by
  simp only [concept_ids_baseline, mem_sort_ids, List.mem_filter, mem_unique_vals,
    List.mem_map, List.elem_iff]
  constructor
  · rintro ⟨⟨r, hr, rfl⟩, hx⟩
    exact ⟨⟨r, hr.1, rfl, by simpa using hr.2⟩, hx⟩
  · rintro ⟨⟨r, hr, rfl, hact⟩, hx⟩
    exact ⟨⟨r, ⟨hr, by simpa using hact⟩, rfl⟩, hx⟩

/-- The dataset after cross-source dedup and the active filter, i.e. the
state from which the identifier set is derived and the cascade starts. -/
def pre_cascade (d : SnomedDataRaw) : SnomedDataRaw :=
  stage_active (stage_dedup d)

theorem post_init_config (d : SnomedDataRaw) : (post_init d).config = d.config := rfl

theorem post_init_ids (d : SnomedDataRaw) :
    (post_init d).ids =
      narrow_ids (concept_ids_baseline (pre_cascade d)) d.config.id_filter d.config.limit := rfl

theorem post_init_concept_no (d : SnomedDataRaw) :
    (post_init d).concept_no = (pre_cascade d).concept_no := rfl

theorem post_init_concept_int (d : SnomedDataRaw) :
    (post_init d).concept_int = (pre_cascade d).concept_int := rfl

theorem post_init_description_no_no (d : SnomedDataRaw) :
    (post_init d).description_no_no =
      (if truthy_limit d.config.limit || truthy_id_filter d.config.id_filter then
        filter_table (pre_cascade d).description_no_no (fun r => r.conceptId)
          (post_init d).ids false
      else (pre_cascade d).description_no_no) := rfl

theorem post_init_description_en_no (d : SnomedDataRaw) :
    (post_init d).description_en_no =
      filter_table (pre_cascade d).description_en_no (fun r => r.conceptId)
        (post_init d).ids false := rfl

theorem post_init_description_en_int (d : SnomedDataRaw) :
    (post_init d).description_en_int =
      filter_table (pre_cascade d).description_en_int (fun r => r.conceptId)
        (post_init d).ids false := rfl

theorem post_init_definition_no_no (d : SnomedDataRaw) :
    (post_init d).definition_no_no =
      filter_table (pre_cascade d).definition_no_no (fun r => r.conceptId)
        (post_init d).ids false := rfl

theorem post_init_definition_en_no (d : SnomedDataRaw) :
    (post_init d).definition_en_no =
      filter_table (pre_cascade d).definition_en_no (fun r => r.conceptId)
        (post_init d).ids false := rfl

theorem post_init_definition_en_int (d : SnomedDataRaw) :
    (post_init d).definition_en_int =
      filter_table (pre_cascade d).definition_en_int (fun r => r.conceptId)
        (post_init d).ids false := rfl

theorem post_init_language_nb_no (d : SnomedDataRaw) :
    (post_init d).language_nb_no =
      filter_table (pre_cascade d).language_nb_no (fun r => r.referencedComponentId)
        ((post_init d).description_no_no.map (fun r => r.id) ++
          (post_init d).definition_no_no.map (fun r => r.id)) false := rfl

theorem post_init_language_nb_gp_no (d : SnomedDataRaw) :
    (post_init d).language_nb_gp_no =
      filter_table (pre_cascade d).language_nb_gp_no (fun r => r.referencedComponentId)
        ((post_init d).description_no_no.map (fun r => r.id) ++
          (post_init d).definition_no_no.map (fun r => r.id)) false := rfl

theorem post_init_language_nn_no (d : SnomedDataRaw) :
    (post_init d).language_nn_no =
      filter_table (pre_cascade d).language_nn_no (fun r => r.referencedComponentId)
        ((post_init d).description_no_no.map (fun r => r.id) ++
          (post_init d).definition_no_no.map (fun r => r.id)) false := rfl

theorem post_init_language_nn_gp_no (d : SnomedDataRaw) :
    (post_init d).language_nn_gp_no =
      filter_table (pre_cascade d).language_nn_gp_no (fun r => r.referencedComponentId)
        ((post_init d).description_no_no.map (fun r => r.id) ++
          (post_init d).definition_no_no.map (fun r => r.id)) false := rfl

theorem post_init_language_en_no (d : SnomedDataRaw) :
    (post_init d).language_en_no =
      filter_table (pre_cascade d).language_en_no (fun r => r.referencedComponentId)
        ((post_init d).description_en_no.map (fun r => r.id) ++
          (post_init d).definition_en_no.map (fun r => r.id)) false := rfl

theorem post_init_language_en_int (d : SnomedDataRaw) :
    (post_init d).language_en_int =
      filter_table (pre_cascade d).language_en_int (fun r => r.referencedComponentId)
        ((post_init d).description_en_int.map (fun r => r.id) ++
          (post_init d).definition_en_int.map (fun r => r.id)) false := rfl

theorem post_init_relationship_no (d : SnomedDataRaw) :
    (post_init d).relationship_no =
      (pre_cascade d).relationship_no.filter
        (fun r =>
          (post_init d).ids.contains r.sourceId ||
            (post_init d).ids.contains r.destinationId) := rfl

theorem post_init_relationship_int (d : SnomedDataRaw) :
    (post_init d).relationship_int =
      (pre_cascade d).relationship_int.filter
        (fun r =>
          (post_init d).ids.contains r.sourceId ||
            (post_init d).ids.contains r.destinationId) := rfl

theorem pre_cascade_concept_int_eq (d : SnomedDataRaw) :
    (pre_cascade d).concept_int =
      active_only
        (filter_table d.concept_int (fun r => r.id) (d.concept_no.map (fun r => r.id)) true)
        (fun r => r.active) := rfl

theorem mem_pre_cascade_description_no_no {d : SnomedDataRaw} {r : SnomedTableDescription} :
    r ∈ (pre_cascade d).description_no_no ↔ r ∈ d.description_no_no ∧ r.active = 1 :=
  mem_active_only

theorem mem_post_pre_description_no_no {d : SnomedDataRaw} {r : SnomedTableDescription}
    (h : r ∈ (post_init d).description_no_no) : r ∈ (pre_cascade d).description_no_no := by
  rw [post_init_description_no_no] at h
  split at h
  · exact filter_table_subset h
  · exact h

/-! ### Claim C4 -/

/-- C4 (confirmed): after reconciliation, every remaining row of each of
the sixteen tables has `active == 1`; the active filter covers all
sixteen tables, and because it runs after the cross-source dedup, an INT
row dropped because an (even inactive) NO row shares its `id` stays
dropped — no surviving INT row's `id` occurs in the original NO table. -/
theorem active_filter_invariant (d : SnomedDataRaw) :
    (∀ r ∈ (post_init d).concept_no, r.active = 1) ∧
    (∀ r ∈ (post_init d).concept_int, r.active = 1) ∧
    (∀ r ∈ (post_init d).description_no_no, r.active = 1) ∧
    (∀ r ∈ (post_init d).description_en_no, r.active = 1) ∧
    (∀ r ∈ (post_init d).description_en_int, r.active = 1) ∧
    (∀ r ∈ (post_init d).definition_no_no, r.active = 1) ∧
    (∀ r ∈ (post_init d).definition_en_no, r.active = 1) ∧
    (∀ r ∈ (post_init d).definition_en_int, r.active = 1) ∧
    (∀ r ∈ (post_init d).language_nb_no, r.active = 1) ∧
    (∀ r ∈ (post_init d).language_nb_gp_no, r.active = 1) ∧
    (∀ r ∈ (post_init d).language_nn_no, r.active = 1) ∧
    (∀ r ∈ (post_init d).language_nn_gp_no, r.active = 1) ∧
    (∀ r ∈ (post_init d).language_en_no, r.active = 1) ∧
    (∀ r ∈ (post_init d).language_en_int, r.active = 1) ∧
    (∀ r ∈ (post_init d).relationship_no, r.active = 1) ∧
    (∀ r ∈ (post_init d).relationship_int, r.active = 1) ∧
    (∀ r ∈ (post_init d).concept_int, r.id ∉ d.concept_no.map (fun x => x.id)) := by
  refine ⟨?_, ?_, ?_, ?_, ?_, ?_, ?_, ?_, ?_, ?_, ?_, ?_, ?_, ?_, ?_, ?_, ?_⟩
  · intro r hr
    rw [post_init_concept_no] at hr
    exact (mem_active_only.mp hr).2
  · intro r hr
    rw [post_init_concept_int] at hr
    exact (mem_active_only.mp hr).2
  · intro r hr
    exact (mem_active_only.mp (mem_post_pre_description_no_no hr)).2
  · intro r hr
    rw [post_init_description_en_no] at hr
    exact (mem_active_only.mp (filter_table_subset hr)).2
  · intro r hr
    rw [post_init_description_en_int] at hr
    exact (mem_active_only.mp (filter_table_subset hr)).2
  · intro r hr
    rw [post_init_definition_no_no] at hr
    exact (mem_active_only.mp (filter_table_subset hr)).2
  · intro r hr
    rw [post_init_definition_en_no] at hr
    exact (mem_active_only.mp (filter_table_subset hr)).2
  · intro r hr
    rw [post_init_definition_en_int] at hr
    exact (mem_active_only.mp (filter_table_subset hr)).2
  · intro r hr
    rw [post_init_language_nb_no] at hr
    exact (mem_active_only.mp (filter_table_subset hr)).2
  · intro r hr
    rw [post_init_language_nb_gp_no] at hr
    exact (mem_active_only.mp (filter_table_subset hr)).2
  · intro r hr
    rw [post_init_language_nn_no] at hr
    exact (mem_active_only.mp (filter_table_subset hr)).2
  · intro r hr
    rw [post_init_language_nn_gp_no] at hr
    exact (mem_active_only.mp (filter_table_subset hr)).2
  · intro r hr
    rw [post_init_language_en_no] at hr
    exact (mem_active_only.mp (filter_table_subset hr)).2
  · intro r hr
    rw [post_init_language_en_int] at hr
    exact (mem_active_only.mp (filter_table_subset hr)).2
  · intro r hr
    rw [post_init_relationship_no] at hr
    exact (mem_active_only.mp (List.mem_filter.mp hr).1).2
  · intro r hr
    rw [post_init_relationship_int] at hr
    exact (mem_active_only.mp (List.mem_filter.mp hr).1).2
  · intro r hr
    rw [post_init_concept_int, pre_cascade_concept_int_eq] at hr
    exact (mem_filter_table_excl.mp (mem_active_only.mp hr).1).2

theorem filter_table_excl_idem (t : List α) (k : α → String) (vals : List String) :
    filter_table (filter_table t k vals true) k vals true = filter_table t k vals true := by
  simp [filter_table, List.filter_filter]

theorem stage_dedup_idem (d : SnomedDataRaw) :
    stage_dedup (stage_dedup d) = stage_dedup d := by
  obtain ⟨cfg, ids, c1, c2, t1, t2, t3, f1, f2, f3, l1, l2, l3, l4, l5, l6, r1, r2⟩ := d
  simp [stage_dedup, filter_table_excl_idem]

/-! ### Claim C5 -/

/-- C5 (confirmed): cross-source dedup keeps in each INT table exactly the
rows whose `id` does not occur in the corresponding NO table (concept,
description-en, definition-en, language-en, relationship), and running
the dedup again on the already-deduplicated data changes nothing. -/
theorem dedup_exact_and_idempotent (d : SnomedDataRaw) :
    (∀ r, r ∈ (stage_dedup d).concept_int ↔
      r ∈ d.concept_int ∧ r.id ∉ d.concept_no.map (fun x => x.id)) ∧
    (∀ r, r ∈ (stage_dedup d).description_en_int ↔
      r ∈ d.description_en_int ∧ r.id ∉ d.description_en_no.map (fun x => x.id)) ∧
    (∀ r, r ∈ (stage_dedup d).definition_en_int ↔
      r ∈ d.definition_en_int ∧ r.id ∉ d.definition_en_no.map (fun x => x.id)) ∧
    (∀ r, r ∈ (stage_dedup d).language_en_int ↔
      r ∈ d.language_en_int ∧ r.id ∉ d.language_en_no.map (fun x => x.id)) ∧
    (∀ r, r ∈ (stage_dedup d).relationship_int ↔
      r ∈ d.relationship_int ∧ r.id ∉ d.relationship_no.map (fun x => x.id)) ∧
    stage_dedup (stage_dedup d) = stage_dedup d :=
  ⟨fun _ => mem_filter_table_excl, fun _ => mem_filter_table_excl,
    fun _ => mem_filter_table_excl, fun _ => mem_filter_table_excl,
    fun _ => mem_filter_table_excl, stage_dedup_idem d⟩

/-- Configuration with no narrowing: no limit, no allow-list. -/
def base_config : Config :=
  { limit := none, validate := true, safe_validation := true, id_filter := none }

/-- A raw dataset with all sixteen tables empty. -/
def empty_raw : SnomedDataRaw :=
  { config := base_config
    ids := []
    concept_no := []
    concept_int := []
    description_no_no := []
    description_en_no := []
    description_en_int := []
    definition_no_no := []
    definition_en_no := []
    definition_en_int := []
    language_nb_no := []
    language_nb_gp_no := []
    language_nn_no := []
    language_nn_gp_no := []
    language_en_no := []
    language_en_int := []
    relationship_no := []
    relationship_int := [] }

/-- Concrete dedup example: NO shadows concept 1, INT also has concept 2. -/
def dedup_example : SnomedDataRaw :=
  { empty_raw with
    concept_no := [{ id := "1", active := 1 }]
    concept_int := [{ id := "1", active := 1 }, { id := "2", active := 1 }] }

theorem dedup_exact_and_idempotent_witness :
    ({ id := "2", active := 1 } : SnomedTableConcept) ∈ (stage_dedup dedup_example).concept_int ∧
      stage_dedup (stage_dedup dedup_example) = stage_dedup dedup_example :=
  ⟨((dedup_exact_and_idempotent dedup_example).1 { id := "2", active := 1 }).mpr
      ⟨by decide, by decide⟩,
    (dedup_exact_and_idempotent dedup_example).2.2.2.2.2⟩

/-! ### Claim C6 -/

/-- C6 (confirmed): a relationship row (NO or INT) survives the
relationship filtering step exactly when its `sourceId` or its
`destinationId` is a member of the final `ids` sequence. -/
theorem relationship_or_filter (d : SnomedDataRaw) :
    (∀ r, r ∈ (post_init d).relationship_no ↔
      r ∈ (pre_cascade d).relationship_no ∧
        (r.sourceId ∈ (post_init d).ids ∨ r.destinationId ∈ (post_init d).ids)) ∧
    (∀ r, r ∈ (post_init d).relationship_int ↔
      r ∈ (pre_cascade d).relationship_int ∧
        (r.sourceId ∈ (post_init d).ids ∨ r.destinationId ∈ (post_init d).ids)) := by
  constructor
  · intro r
    rw [post_init_relationship_no, List.mem_filter]
    simp
  · intro r
    rw [post_init_relationship_int, List.mem_filter]
    simp

/-- Relationship example: concept 1 is in scope, the row points at it only
through `destinationId`. -/
def relationship_example : SnomedDataRaw :=
  { empty_raw with
    concept_no := [{ id := "1", active := 1 }]
    description_no_no :=
      [{ id := "d1", active := 1, conceptId := "1", languageCode := "no",
         typeId := "synonym", term := "t" }]
    relationship_no :=
      [{ id := "r1", active := 1, sourceId := "9", destinationId := "1",
         relationshipGroup := "0", typeId := "Is a (attribute)",
         characteristicTypeId := "c" }] }

theorem relationship_or_filter_witness :
    ({ id := "r1", active := 1, sourceId := "9", destinationId := "1",
       relationshipGroup := "0", typeId := "Is a (attribute)",
       characteristicTypeId := "c" } : SnomedTableRelationship) ∈
      (post_init relationship_example).relationship_no :=
  ((relationship_or_filter relationship_example).1 _).mpr
    ⟨by decide, Or.inr (by decide)⟩

/-! ### Claim C1 -/

/-- C1 (confirmed): starting from the sorted baseline, a (nonempty)
configured `id_filter` restricts the sequence to allow-list members in
baseline order; a (nonzero) configured `limit` subsequently truncates to
the first `limit` elements; both narrowings compose in that order, and
with neither configured the baseline passes through unchanged.  The
concrete scenario: baseline `["1","2","3"]` with allow-list `("2",)`
yields `["2"]`, and additionally applying `limit = 1` still yields
`["2"]`. -/
theorem scope_narrowing (d : SnomedDataRaw) :
    (∀ b f, f ≠ ([] : List String) →
      narrow_ids b (some f) none = b.filter (fun i => f.contains i)) ∧
    (∀ b f n, f ≠ ([] : List String) → n ≠ 0 →
      narrow_ids b (some f) (some n) = (b.filter (fun i => f.contains i)).take n) ∧
    (∀ b n, n ≠ 0 → narrow_ids b none (some n) = b.take n) ∧
    (∀ b, narrow_ids b none none = b) ∧
    (post_init d).ids = narrow_ids (concept_ids_baseline (pre_cascade d))
      d.config.id_filter d.config.limit ∧
    narrow_ids ["1", "2", "3"] (some ["2"]) none = ["2"] ∧
    narrow_ids ["1", "2", "3"] (some ["2"]) (some 1) = ["2"] := by
  refine ⟨?_, ?_, ?_, ?_, post_init_ids d, by decide, by decide⟩
  · intro b f hf
    simp [narrow_ids, List.isEmpty_iff, hf]
  · intro b f n hf hn
    simp [narrow_ids, List.isEmpty_iff, hf, hn]
  · intro b n hn
    simp [narrow_ids, hn]
  · intro b
    simp [narrow_ids]

theorem scope_narrowing_witness :
    narrow_ids ["1", "2", "3"] (some ["2"]) (some 1) =
      ((["1", "2", "3"] : List String).filter (fun i => ["2"].contains i)).take 1 :=
  (scope_narrowing empty_raw).2.1 ["1", "2", "3"] ["2"] 1 (by decide) (by decide)

/-! ### Claim C10 -/

/-- C10 (confirmed): falsy narrowing configuration is treated as absent —
an `id_filter` configured as the empty sequence behaves exactly like no
allow-list (the narrowing is skipped, not applied as an empty allow-list),
and a `limit` configured as `0` applies no truncation; in particular a
run with empty allow-list and zero limit keeps the full baseline as its
final `ids`. -/
theorem falsy_narrowing_ignored (d : SnomedDataRaw) :
    (∀ b l, narrow_ids b (some []) l = narrow_ids b none l) ∧
    (∀ b f, narrow_ids b f (some 0) = narrow_ids b f none) ∧
    (∀ b, narrow_ids b (some []) none = b) ∧
    (∀ b, narrow_ids b none (some 0) = b) ∧
    (d.config.id_filter = some [] → d.config.limit = some 0 →
      (post_init d).ids = concept_ids_baseline (pre_cascade d)) := by
  refine ⟨?_, ?_, ?_, ?_, ?_⟩
  · intro b l
    simp [narrow_ids]
  · intro b f
    rcases f with _ | fl <;> simp [narrow_ids]
  · intro b
    simp [narrow_ids]
  · intro b
    simp [narrow_ids]
  · intro hf hl
    rw [post_init_ids, hf, hl]
    simp [narrow_ids]

/-- Dataset with an empty allow-list and a zero limit configured. -/
def falsy_config_example : SnomedDataRaw :=
  { empty_raw with
    config :=
      { limit := some 0, validate := true, safe_validation := true, id_filter := some [] }
    concept_no := [{ id := "1", active := 1 }]
    description_no_no :=
      [{ id := "d1", active := 1, conceptId := "1", languageCode := "no",
         typeId := "synonym", term := "t" }] }

theorem falsy_narrowing_ignored_witness :
    (post_init falsy_config_example).ids =
      concept_ids_baseline (pre_cascade falsy_config_example) :=
  (falsy_narrowing_ignored falsy_config_example).2.2.2.2 rfl rfl

theorem mem_narrow_ids_allowlist {b f : List String} {l : Option Nat} {x : String}
    (hf : f ≠ []) (h : x ∈ narrow_ids b (some f) l) : x ∈ f := by
  have hfe : f.isEmpty = false := by simpa [List.isEmpty_iff] using hf
  have hfilter : ∀ y, y ∈ b.filter (fun i => f.contains i) → y ∈ f := by
    intro y hy
    simpa using (List.mem_filter.mp hy).2
  rcases l with _ | n
  · simp only [narrow_ids, hfe, Bool.false_eq_true, if_false] at h
    exact hfilter x h
  · simp only [narrow_ids, hfe, Bool.false_eq_true, if_false] at h
    by_cases hn : n = 0
    · rw [if_pos hn] at h
      exact hfilter x h
    · rw [if_neg hn] at h
      exact hfilter x (List.mem_of_mem_take h)

theorem narrow_ids_length_limit {b : List String} {f : Option (List String)} {n : Nat}
    (hn : n ≠ 0) : (narrow_ids b f (some n)).length ≤ n := by
  simp only [narrow_ids]
  rw [if_neg hn]
  simp [List.length_take]

/-! ### Claim C3 (amended) -/

/-- Dataset configured with `limit = 0`: the baseline has one identifier
and, `0` being falsy, no truncation is applied. -/
def limit_zero_example : SnomedDataRaw :=
  { empty_raw with
    config :=
      { limit := some 0, validate := true, safe_validation := true, id_filter := none }
    concept_no := [{ id := "1", active := 1 }]
    description_no_no :=
      [{ id := "d1", active := 1, conceptId := "1", languageCode := "no",
         typeId := "synonym", term := "t" }] }

/-- C3 counterexample: with `limit` configured as the non-negative integer
`0`, the final `ids` has length `1 > 0`, refuting the claim that a
configured non-negative limit `N` always bounds the length by `N`. -/
theorem final_ids_invariant_counterexample :
    limit_zero_example.config.limit = some 0 ∧
      ¬((post_init limit_zero_example).ids.length ≤ 0) :=
  ⟨rfl, by decide⟩

/-- C3 (amended): the final `ids` sequence is always a subset of the
concept universe (post-dedup, active-filtered NO and INT concept ids);
every identifier in it denotes an active concept and has at least one
active national-language description; with a nonempty allow-list
configured it is a subset of both the baseline and the allow-list; and
with a *positive* limit N configured its length is at most N (a limit of
0 is falsy and applies no truncation). -/
theorem final_ids_invariant (d : SnomedDataRaw) :
    (∀ i ∈ (post_init d).ids, i ∈ concepts_active (pre_cascade d)) ∧
    (∀ i ∈ (post_init d).ids,
      ∃ r, (r ∈ d.concept_no ∨ r ∈ d.concept_int) ∧ r.id = i ∧ r.active = 1) ∧
    (∀ i ∈ (post_init d).ids,
      ∃ r ∈ d.description_no_no, r.conceptId = i ∧ r.active = 1) ∧
    (∀ f, d.config.id_filter = some f → f ≠ [] →
      ∀ i ∈ (post_init d).ids, i ∈ concept_ids_baseline (pre_cascade d) ∧ i ∈ f) ∧
    (∀ n, d.config.limit = some n → 0 < n → (post_init d).ids.length ≤ n) := by
  have hbase : ∀ i ∈ (post_init d).ids, i ∈ concept_ids_baseline (pre_cascade d) := by
    intro i hi
    rw [post_init_ids] at hi
    exact narrow_ids_subset hi
  have huniv : ∀ i ∈ (post_init d).ids, i ∈ concepts_active (pre_cascade d) := by
    intro i hi
    exact (mem_concept_ids_baseline.mp (hbase i hi)).2
  refine ⟨huniv, ?_, ?_, ?_, ?_⟩
  · intro i hi
    rcases mem_concepts_active.mp (huniv i hi) with ⟨r, hr, hid⟩ | ⟨r, hr, hid⟩
    · have hr2 : r ∈ filter_table d.concept_int (fun x => x.id)
          (d.concept_no.map (fun x => x.id)) true ∧ r.active = 1 := mem_active_only.mp hr
      exact ⟨r, Or.inr (filter_table_subset hr2.1), hid, hr2.2⟩
    · have hr2 : r ∈ d.concept_no ∧ r.active = 1 := mem_active_only.mp hr
      exact ⟨r, Or.inl hr2.1, hid, hr2.2⟩
  · intro i hi
    obtain ⟨r, hr, hcid, hact⟩ := (mem_concept_ids_baseline.mp (hbase i hi)).1
    exact ⟨r, (mem_active_only.mp hr).1, hcid, hact⟩
  · intro f hf hfne i hi
    refine ⟨hbase i hi, ?_⟩
    rw [post_init_ids, hf] at hi
    exact mem_narrow_ids_allowlist hfne hi
  · intro n hn hn0
    rw [post_init_ids, hn]
    exact narrow_ids_length_limit (Nat.pos_iff_ne_zero.mp hn0)

/-- Dataset with both narrowings truthy: allow-list `("2",)`, limit `1`. -/
def narrowing_example : SnomedDataRaw :=
  { empty_raw with
    config :=
      { limit := some 1, validate := true, safe_validation := true,
        id_filter := some ["2"] }
    concept_no :=
      [{ id := "1", active := 1 }, { id := "2", active := 1 }, { id := "3", active := 1 }]
    description_no_no :=
      [{ id := "d1", active := 1, conceptId := "1", languageCode := "no",
         typeId := "synonym", term := "t1" },
       { id := "d2", active := 1, conceptId := "2", languageCode := "no",
         typeId := "synonym", term := "t2" },
       { id := "d3", active := 1, conceptId := "3", languageCode := "no",
         typeId := "synonym", term := "t3" }] }

theorem final_ids_invariant_witness :
    ("2" ∈ concepts_active (pre_cascade narrowing_example) ∧ "2" ∈ ["2"]) ∧
      (post_init narrowing_example).ids.length ≤ 1 :=
  ⟨⟨(final_ids_invariant narrowing_example).1 "2" (by decide),
      ((final_ids_invariant narrowing_example).2.2.2.1 ["2"] rfl (by decide) "2"
          (by decide)).2⟩,
    (final_ids_invariant narrowing_example).2.2.2.2 1 rfl (by decide)⟩

/-! ### Claim C2 (amended) -/

/-- Dataset with neither limit nor allow-list configured and a national
description row whose concept is absent from both concept tables. -/
def cascade_example : SnomedDataRaw :=
  { empty_raw with
    description_no_no :=
      [{ id := "d1", active := 1, conceptId := "X", languageCode := "no",
         typeId := "synonym", term := "t" }] }

/-- C2 counterexample: with neither limit nor id_filter configured, the
national description table is not cascade-filtered, so a remaining row
can carry a `conceptId` outside the final `ids` sequence. -/
theorem cascade_completeness_counterexample :
    ∃ r ∈ (post_init cascade_example).description_no_no,
      r.conceptId ∉ (post_init cascade_example).ids := by
  decide

/-- C2 (amended): after the reconciliation cascade, every remaining row of
the English description tables and of all three definition tables has its
`conceptId` in the final `ids` sequence, in every configuration; for the
national description table this holds whenever limit or id_filter is
truthy-configured — with neither configured that table is left unfiltered
and may retain rows whose `conceptId` is not in `ids`. -/
theorem cascade_completeness (d : SnomedDataRaw) :
    (∀ r ∈ (post_init d).description_en_no, r.conceptId ∈ (post_init d).ids) ∧
    (∀ r ∈ (post_init d).description_en_int, r.conceptId ∈ (post_init d).ids) ∧
    (∀ r ∈ (post_init d).definition_no_no, r.conceptId ∈ (post_init d).ids) ∧
    (∀ r ∈ (post_init d).definition_en_no, r.conceptId ∈ (post_init d).ids) ∧
    (∀ r ∈ (post_init d).definition_en_int, r.conceptId ∈ (post_init d).ids) ∧
    ((truthy_limit d.config.limit || truthy_id_filter d.config.id_filter) = true →
      ∀ r ∈ (post_init d).description_no_no, r.conceptId ∈ (post_init d).ids) := by
  refine ⟨?_, ?_, ?_, ?_, ?_, ?_⟩
  · intro r hr
    rw [post_init_description_en_no] at hr
    exact (mem_filter_table_incl.mp hr).2
  · intro r hr
    rw [post_init_description_en_int] at hr
    exact (mem_filter_table_incl.mp hr).2
  · intro r hr
    rw [post_init_definition_no_no] at hr
    exact (mem_filter_table_incl.mp hr).2
  · intro r hr
    rw [post_init_definition_en_no] at hr
    exact (mem_filter_table_incl.mp hr).2
  · intro r hr
    rw [post_init_definition_en_int] at hr
    exact (mem_filter_table_incl.mp hr).2
  · intro h r hr
    rw [post_init_description_no_no, if_pos h] at hr
    exact (mem_filter_table_incl.mp hr).2

theorem cascade_completeness_witness :
    ({ id := "d2", active := 1, conceptId := "2", languageCode := "no",
       typeId := "synonym", term := "t2" } : SnomedTableDescription).conceptId ∈
      (post_init narrowing_example).ids :=
  (cascade_completeness narrowing_example).2.2.2.2.2 (by decide) _ (by decide)

/-! ### Claim C7 -/

theorem validate_table_none_iff (safe : Bool) (valid : α → Bool) (rows : List α) :
    validate_table safe valid rows = none ↔
      safe = false ∧ ∃ r ∈ rows, valid r = false := by
  induction rows with
  | nil => simp [validate_table]
  | cons r rs ih =>
    rw [validate_table]
    by_cases hv : valid r = true
    · rw [if_pos hv, ih]
      simp only [List.mem_cons]
      constructor
      · rintro ⟨hs, x, hx, hxv⟩
        exact ⟨hs, x, Or.inr hx, hxv⟩
      · rintro ⟨hs, x, hx | hx, hxv⟩
        · rw [hx] at hxv
          rw [hv] at hxv
          cases hxv
        · exact ⟨hs, x, hx, hxv⟩
    · rw [if_neg hv]
      by_cases hs : safe = true
      · rw [if_pos hs, Option.map_eq_none', ih]
        constructor
        · rintro ⟨h1, _⟩
          rw [hs] at h1
          cases h1
        · rintro ⟨h1, _⟩
          rw [hs] at h1
          cases h1
      · rw [if_neg hs]
        have hs2 : safe = false := by
          cases safe
          · rfl
          · exact absurd rfl hs
        have hv2 : valid r = false := by
          cases h : valid r
          · rfl
          · exact absurd h hv
        constructor
        · intro _
          exact ⟨hs2, r, List.mem_cons_self r rs, hv2⟩
        · intro _
          rfl

theorem validate_table_safe_eq (valid : α → Bool) (rows : List α) :
    validate_table true valid rows = some (rows.filter (fun r => !valid r)) := by
  induction rows with
  | nil => simp [validate_table]
  | cons r rs ih =>
    rw [validate_table, List.filter_cons]
    by_cases hv : valid r = true
    · simp [hv, ih]
    · have hv2 : valid r = false := by
        cases h : valid r
        · rfl
        · exact absurd h hv
      simp [hv2, ih]

/-- C7 (confirmed): `validate_table` escalates to a fatal error (`none`)
exactly when some row fails the table family's field validators and
`safe_validation` is false; when `safe_validation` is true it completes,
the warned-about rows being exactly the failing rows in order; and the
validated table itself is never modified — whenever the validation stage
returns a table it is the input table unchanged. -/
theorem validation_error_semantics (safe : Bool) (valid : α → Bool) (rows : List α) :
    (validate_table safe valid rows = none ↔
      safe = false ∧ ∃ r ∈ rows, valid r = false) ∧
    (safe = true →
      validate_table safe valid rows = some (rows.filter (fun r => !valid r))) ∧
    (∀ do_validate res,
      validate_and_return do_validate safe valid rows = some res → res = rows) := by
  refine ⟨validate_table_none_iff safe valid rows, ?_, ?_⟩
  · intro hs
    rw [hs]
    exact validate_table_safe_eq valid rows
  · intro do_validate res h
    unfold validate_and_return at h
    split at h
    · split at h
      · cases h
      · injection h with h
        exact h.symm
    · injection h with h
      exact h.symm

/-- A description row rejected by the `active ∈ {1, 0}` validator. -/
def bad_description : SnomedTableDescription :=
  { id := "d", active := 2, conceptId := "c", languageCode := "no",
    typeId := "synonym", term := "t" }

/-- A description row accepted by all validators. -/
def good_description : SnomedTableDescription :=
  { id := "d", active := 1, conceptId := "c", languageCode := "no",
    typeId := "fsn", term := "t" }

theorem validation_error_semantics_witness :
    validate_table false description_valid [bad_description] = none ∧
      ([good_description] : List SnomedTableDescription) = [good_description] :=
  ⟨(validation_error_semantics false description_valid [bad_description]).1.mpr
      ⟨rfl, bad_description, by decide, by decide⟩,
    (validation_error_semantics true description_valid [good_description]).2.2 true
      [good_description] (by decide)⟩

/-! ### Join lemmas for the denormalization claims -/

theorem join_right_total {left : List α} {right : List β} {lk : α → String}
    {rk : β → String} {r : β} (hr : r ∈ right) :
    ∃ p ∈ join_right left right lk rk, p.2 = r := by
  by_cases h : (left.filter (fun l => lk l == rk r)).isEmpty
  · exact ⟨(none, r), List.mem_flatMap.mpr ⟨r, hr, by simp [join_right, h]⟩, rfl⟩
  · obtain ⟨l0, hl0⟩ :=
      List.exists_mem_of_ne_nil (left.filter (fun l => lk l == rk r))
        (fun hnil => by rw [hnil] at h; exact h rfl)
    refine ⟨(some l0, r), List.mem_flatMap.mpr ⟨r, hr, ?_⟩, rfl⟩
    simp only [join_right, h, Bool.false_eq_true, if_false]
    exact List.mem_map.mpr ⟨l0, hl0, rfl⟩

theorem mem_join_right_matched {left : List α} {right : List β} {lk : α → String}
    {rk : β → String} {l : α} {r : β}
    (h : (some l, r) ∈ join_right left right lk rk) :
    r ∈ right ∧ l ∈ left ∧ lk l = rk r := by
  obtain ⟨r0, hr0, hp⟩ := List.mem_flatMap.mp h
  by_cases he : (left.filter (fun x => lk x == rk r0)).isEmpty
  · simp [he] at hp
  · simp only [he, Bool.false_eq_true, if_false, List.mem_map] at hp
    obtain ⟨x, hx, hpe⟩ := hp
    have hx2 := List.mem_filter.mp hx
    have hxl : x = l := congrArg Prod.fst hpe |> Option.some.inj
    have hrr : r0 = r := congrArg Prod.snd hpe
    subst hxl
    subst hrr
    exact ⟨hr0, hx2.1, by simpa using hx2.2⟩

theorem mem_join_right_cases {left : List α} {right : List β} {lk : α → String}
    {rk : β → String} {p : Option α × β} (h : p ∈ join_right left right lk rk) :
    p.2 ∈ right := by
  obtain ⟨r0, hr0, hp⟩ := List.mem_flatMap.mp h
  by_cases he : (left.filter (fun x => lk x == rk r0)).isEmpty
  · simp only [he, if_true] at hp
    have : p = (none, r0) := by simpa [join_right] using hp
    rw [this]
    exact hr0
  · simp only [he, Bool.false_eq_true, if_false, List.mem_map] at hp
    obtain ⟨x, _, hpe⟩ := hp
    have : p.2 = r0 := by rw [← hpe]
    rw [this]
    exact hr0

theorem type_is_in_eq_true {vals : List String} {t : Option String}
    (h : type_is_in vals t = true) : ∃ s, t = some s ∧ s ∈ vals := by
  cases t with
  | none => simp [type_is_in] at h
  | some s => exact ⟨s, rfl, by simpa [type_is_in] using h⟩

theorem type_eq_eq_true {v : String} {t : Option String}
    (h : type_eq v t = true) : t = some v := by
  cases t with
  | none => simp [type_eq] at h
  | some s =>
    have : s = v := by simpa [type_eq] using h
    rw [this]

theorem terms_no_mem_origin {d : SnomedDataRaw} {row : TermRow} (h : row ∈ terms_no d) :
    ∃ dd ∈ d.description_no_no, row.typeId = some dd.typeId ∧
      dd.typeId ∈ (["fsn", "synonym"] : List String) ∧ dd.id = row.termId := by
  obtain ⟨p, hp, rfl⟩ := List.mem_map.mp h
  have hf := (List.mem_filter.mp hp).2
  have hj := (List.mem_filter.mp hp).1
  obtain ⟨s, hs, hsv⟩ := type_is_in_eq_true hf
  cases hp1 : p.1 with
  | none =>
    rw [hp1] at hs
    cases hs
  | some dd =>
    rw [hp1] at hs
    have hdd : dd.typeId = s := Option.some.inj hs
    have hj2 : (some dd, p.2) ∈ terms_no_joined d := by
      rw [← hp1]
      exact hj
    obtain ⟨_, hdm, hkey⟩ := mem_join_right_matched hj2
    exact ⟨dd, hdm, by simp [hp1], by rw [hdd]; exact hsv, hkey⟩

theorem terms_en_mem_origin {d : SnomedDataRaw} {row : TermRow} (h : row ∈ terms_en d) :
    ∃ dd, (dd ∈ d.description_en_no ∨ dd ∈ d.description_en_int) ∧
      row.typeId = some dd.typeId ∧ dd.typeId ∈ (["fsn", "synonym"] : List String) := by
  obtain ⟨p, hp, rfl⟩ := List.mem_map.mp h
  have hf := (List.mem_filter.mp hp).2
  have hj := (List.mem_filter.mp hp).1
  obtain ⟨s, hs, hsv⟩ := type_is_in_eq_true hf
  cases hp1 : p.1 with
  | none =>
    rw [hp1] at hs
    cases hs
  | some dd =>
    rw [hp1] at hs
    have hdd : dd.typeId = s := Option.some.inj hs
    have hj2 : (some dd, p.2) ∈ join_right (d.description_en_no ++ d.description_en_int)
        (d.language_en_no ++ d.language_en_int) (fun r => r.id)
        (fun r => r.referencedComponentId) := by
      rw [← hp1]
      exact hj
    obtain ⟨_, hdm, _⟩ := mem_join_right_matched hj2
    exact ⟨dd, List.mem_append.mp hdm, by simp [hp1], by rw [hdd]; exact hsv⟩

theorem definitions_no_origin {d : SnomedDataRaw} {row : DefinitionRow}
    (h : row ∈ definitions_no d) :
    ∃ dd ∈ d.definition_no_no, dd.typeId = "definition" ∧ row.definitionId = dd.id ∧
      row.conceptId = some dd.conceptId := by
  obtain ⟨p, hp, rfl⟩ := List.mem_map.mp h
  have hf := (List.mem_filter.mp hp).2
  have hj := (List.mem_filter.mp hp).1
  cases hp1 : p.1 with
  | none =>
    rw [hp1] at hf
    simp [type_eq] at hf
  | some dd =>
    have hs : (some dd).map (fun r => r.typeId) = some "definition" := by
      rw [← hp1]
      exact type_eq_eq_true hf
    have hdd : dd.typeId = "definition" := Option.some.inj hs
    have hj2 : (some dd, p.2) ∈ join_right d.definition_no_no (joined_no_language_defs d)
        (fun r => r.id) (fun q => q.1.referencedComponentId) := by
      rw [← hp1]
      exact hj
    obtain ⟨_, hdm, hkey⟩ := mem_join_right_matched hj2
    exact ⟨dd, hdm, hdd, hkey.symm, by simp [hp1]⟩

theorem definitions_en_origin {d : SnomedDataRaw} {row : DefinitionRow}
    (h : row ∈ definitions_en d) :
    ∃ dd, (dd ∈ d.definition_en_no ∨ dd ∈ d.definition_en_int) ∧
      dd.typeId = "definition" ∧ row.definitionId = dd.id ∧
      row.conceptId = some dd.conceptId := by
  obtain ⟨p, hp, rfl⟩ := List.mem_map.mp h
  have hf := (List.mem_filter.mp hp).2
  have hj := (List.mem_filter.mp hp).1
  cases hp1 : p.1 with
  | none =>
    rw [hp1] at hf
    simp [type_eq] at hf
  | some dd =>
    have hs : (some dd).map (fun r => r.typeId) = some "definition" := by
      rw [← hp1]
      exact type_eq_eq_true hf
    have hdd : dd.typeId = "definition" := Option.some.inj hs
    have hj2 : (some dd, p.2) ∈ join_right (d.definition_en_no ++ d.definition_en_int)
        (d.language_en_no ++ d.language_en_int) (fun r => r.id)
        (fun r => r.referencedComponentId) := by
      rw [← hp1]
      exact hj
    obtain ⟨_, hdm, hkey⟩ := mem_join_right_matched hj2
    exact ⟨dd, List.mem_append.mp hdm, hdd, hkey.symm, by simp [hp1]⟩

/-! ### Claim C8 -/

/-- C8 (confirmed): every row of the denormalized terms output has
`typeId` among `fsn` and `synonym` — never `definition` — and every row
of the denormalized definitions output originates from a definition-table
row with `typeId == definition` (linked through the join key). -/
theorem denormalized_type_projection (d : SnomedDataRaw) :
    (∀ row ∈ denormalize_term_tables d,
      row.typeId = some "fsn" ∨ row.typeId = some "synonym") ∧
    (∀ row ∈ denormalize_term_tables d, row.typeId ≠ some "definition") ∧
    (∀ row ∈ denormalize_definition_tables d,
      ∃ dd, (dd ∈ d.definition_no_no ∨ dd ∈ d.definition_en_no ∨
          dd ∈ d.definition_en_int) ∧
        dd.typeId = "definition" ∧ row.definitionId = dd.id ∧
        row.conceptId = some dd.conceptId) := by
  have hterms : ∀ row ∈ denormalize_term_tables d,
      row.typeId = some "fsn" ∨ row.typeId = some "synonym" := by
    intro row hrow
    rcases List.mem_append.mp hrow with h | h
    · obtain ⟨dd, _, hty, hin, _⟩ := terms_no_mem_origin h
      simp only [List.mem_cons, List.not_mem_nil, or_false] at hin
      rcases hin with h1 | h1
      · left
        rw [hty, h1]
      · right
        rw [hty, h1]
    · obtain ⟨dd, _, hty, hin⟩ := terms_en_mem_origin h
      simp only [List.mem_cons, List.not_mem_nil, or_false] at hin
      rcases hin with h1 | h1
      · left
        rw [hty, h1]
      · right
        rw [hty, h1]
  refine ⟨hterms, ?_, ?_⟩
  · intro row hrow hdef
    rcases hterms row hrow with h1 | h1 <;> rw [hdef] at h1 <;>
      exact absurd (Option.some.inj h1) (by decide)
  · intro row hrow
    rcases List.mem_append.mp hrow with h | h
    · obtain ⟨dd, hdm, hdd, hid, hcid⟩ := definitions_no_origin h
      exact ⟨dd, Or.inl hdm, hdd, hid, hcid⟩
    · obtain ⟨dd, hdm, hdd, hid, hcid⟩ := definitions_en_origin h
      rcases hdm with h1 | h1
      · exact ⟨dd, Or.inr (Or.inl h1), hdd, hid, hcid⟩
      · exact ⟨dd, Or.inr (Or.inr h1), hdd, hid, hcid⟩

/-- Dataset exercising both denormalized outputs: one national `fsn`
description and one national definition, each referenced by a language
row. -/
def denorm_example : SnomedDataRaw :=
  { empty_raw with
    description_no_no :=
      [{ id := "d1", active := 1, conceptId := "c1", languageCode := "no",
         typeId := "fsn", term := "t1" }]
    definition_no_no :=
      [{ id := "f1", active := 1, conceptId := "c1", languageCode := "no",
         typeId := "definition", term := "def1" }]
    language_nb_no :=
      [{ id := "l1", active := 1, refsetId := "rs", referencedComponentId := "d1",
         acceptabilityId := "tilrådd" },
       { id := "l2", active := 1, refsetId := "rs", referencedComponentId := "f1",
         acceptabilityId := "tilrådd" }] }

theorem denormalized_type_projection_witness :
    (({ conceptId := some "c1", termId := "d1", term := some "t1", lc := "nb",
        typeId := some "fsn", acceptabilityId := "tilrådd",
        acceptabilityId_gp := none } : TermRow).typeId = some "fsn" ∨
      ({ conceptId := some "c1", termId := "d1", term := some "t1", lc := "nb",
         typeId := some "fsn", acceptabilityId := "tilrådd",
         acceptabilityId_gp := none } : TermRow).typeId = some "synonym") ∧
      ∃ dd, (dd ∈ denorm_example.definition_no_no ∨
          dd ∈ denorm_example.definition_en_no ∨
          dd ∈ denorm_example.definition_en_int) ∧
        dd.typeId = "definition" ∧
        ({ conceptId := some "c1", definitionId := "f1", term := some "def1",
           lc := "nb" } : DefinitionRow).definitionId = dd.id ∧
        ({ conceptId := some "c1", definitionId := "f1", term := some "def1",
           lc := "nb" } : DefinitionRow).conceptId = some dd.conceptId :=
  ⟨(denormalized_type_projection denorm_example).1 _ (by decide),
    (denormalized_type_projection denorm_example).2.2 _ (by decide)⟩

/-! ### Claim C9 (amended) -/

/-- Dataset with one national bokmål language row and no description rows
at all. -/
def unmatched_language_example : SnomedDataRaw :=
  { empty_raw with
    language_nb_no :=
      [{ id := "l1", active := 1, refsetId := "rs", referencedComponentId := "d9",
         acceptabilityId := "tilrådd" }] }

/-- C9 counterexample: the combined national language table has one row,
yet the terms output is empty — an unmatched language-annotation row does
not survive into the terms output, because the right join leaves its
description-side `typeId` null and the subsequent type filter drops it. -/
theorem right_join_language_counterexample :
    (joined_no_language unmatched_language_example).length = 1 ∧
      denormalize_term_tables unmatched_language_example = [] := by
  constructor
  · rfl
  · rfl

/-- C9 (amended): the combined national language table is right-joined
onto the national description table on `id = referencedComponentId`, so
every language-annotation row survives the join itself (appearing with a
null description side when unmatched) and every joined row stems from the
language table; but only rows matched to a description of type `fsn` or
`synonym` reach the terms output — unmatched rows are dropped by the
subsequent type filter. -/
theorem right_join_language_survival (d : SnomedDataRaw) :
    (∀ lg ∈ joined_no_language d, ∃ p ∈ terms_no_joined d, p.2 = lg) ∧
    (∀ p ∈ terms_no_joined d, p.2 ∈ joined_no_language d) ∧
    (∀ row ∈ terms_no d, ∃ dd ∈ d.description_no_no,
      dd.id = row.termId ∧ dd.typeId ∈ (["fsn", "synonym"] : List String)) := by
  refine ⟨?_, ?_, ?_⟩
  · intro lg hlg
    exact join_right_total hlg
  · intro p hp
    exact mem_join_right_cases hp
  · intro row hrow
    obtain ⟨dd, hdm, _, hin, hkey⟩ := terms_no_mem_origin hrow
    exact ⟨dd, hdm, hkey, hin⟩

theorem right_join_language_survival_witness :
    ∃ p ∈ terms_no_joined unmatched_language_example,
      p.2 = ({ id := "l1", active := 1, refsetId := "rs",
               referencedComponentId := "d9", acceptabilityId := "tilrådd",
               acceptabilityId_gp := none, lc := "nb" } : NoLangRow) :=
  (right_join_language_survival unmatched_language_example).1 _ (by decide)

theorem active_filter_invariant_witness :
    ({ id := "1", active := 1 } : SnomedTableConcept).active = 1 :=
  (active_filter_invariant relationship_example).1 { id := "1", active := 1 } (by decide)
